import Mathlib

/-!
# Verification of the cpp_network_engine framing/connection core

Shallow embedding of the message codec (`net_message`), the per-connection
read/write state machine (`tcp_connection`), the client read loop
(`net_client`) and the server registry (`net_server`) of the
holland11/cpp_network_engine repository, together with theorems settling
the specification claims about them.

Bytes are modelled as `Nat` (ASCII codes for header characters), the
516-byte `data_` array as a total function `Nat → Nat` (an out-of-bounds
write is then visible as a write at an index `≥ header_length +
max_body_length`), and indeterminate (uninitialized) memory as explicit
parameters.
-/

namespace NetEngine

/-- `net_message::header_length = 4`. -/
def header_length : Nat := 4

/-- `net_message::max_body_length = 512`. -/
def max_body_length : Nat := 512

/-- Size of the `char data_[header_length + max_body_length]` array. -/
def data_size : Nat := header_length + max_body_length

/-- `std::memcpy(dst + off, src, n)` on byte arrays modelled as total
functions: indices `off ≤ i < off + n` take `src (i - off)`, the rest keep
`dst i`. -/
def memcpy (dst : Nat → Nat) (off : Nat) (src : Nat → Nat) (n : Nat) : Nat → Nat :=
  fun i => if off ≤ i ∧ i < off + n then src (i - off) else dst i

/-- ASCII code of the space character. -/
def spc : Nat := 32

/-- Whether an ASCII code is a decimal digit (`'0'..'9'`). -/
def isDigitCode (c : Nat) : Prop := 48 ≤ c ∧ c ≤ 57

instance (c : Nat) : Decidable (isDigitCode c) := by
  unfold isDigitCode; infer_instance

/-- Whether an ASCII code is whitespace in the sense skipped by `atoi`
(`isspace`: space, \t, \n, \v, \f, \r). -/
def isSpaceCode (c : Nat) : Bool :=
  c = 32 || c = 9 || c = 10 || c = 11 || c = 12 || c = 13

/-- `std::sprintf(header, "%4d", n)` for `0 ≤ n ≤ 9999`: the decimal
representation of `n`, right-justified in a field of width 4, padded with
spaces.  (For `n > 9999` the source writes more than 4 characters and
overflows its 5-byte buffer; no claim needs that range.) -/
def sprintf4 (n : Nat) : List Nat :=
  if n < 10 then [spc, spc, spc, 48 + n]
  else if n < 100 then [spc, spc, 48 + n / 10, 48 + n % 10]
  else if n < 1000 then [spc, 48 + n / 100, 48 + n / 10 % 10, 48 + n % 10]
  else [48 + n / 1000 % 10, 48 + n / 100 % 10, 48 + n / 10 % 10, 48 + n % 10]

/-- The digit-consuming loop of `std::atoi`: accumulate decimal digits,
stop at the first non-digit (or at the end of the modelled memory). -/
def parseDigitsAcc : List Nat → Nat → Nat
  | [], acc => acc
  | c :: cs, acc =>
      if isDigitCode c then parseDigitsAcc cs (acc * 10 + (c - 48)) else acc

/-- Sign handling of `std::atoi`: an optional sign, then decimal digits
up to the first non-digit. -/
def atoiSigned : List Nat → Int
  | [] => 0
  | c :: rest =>
      if c = 45 then -(parseDigitsAcc rest 0 : Int)
      else if c = 43 then (parseDigitsAcc rest 0 : Int)
      else (parseDigitsAcc (c :: rest) 0 : Int)

/-- `std::atoi` on a byte sequence: skip leading whitespace, then an
optionally signed run of decimal digits. -/
def atoi (s : List Nat) : Int :=
  atoiSigned (s.dropWhile (fun c => isSpaceCode c))

/-- Conversion of an `int` value to `std::size_t` (unsigned 64-bit):
reduction modulo `2^64`.  In particular no negative length can be stored,
but a negative `int` wraps to a huge value. -/
def sizeT (i : Int) : Nat := (i % (2 ^ 64 : Nat)).toNat

/-- The `net_message` class: a 516-byte buffer `data_` (4-byte ASCII
header followed by up to 512 body bytes) and the tracked body length
`body_length_` (a `std::size_t`). -/
structure net_message where
  data_ : Nat → Nat
  body_length_ : Nat

namespace net_message

/-- `net_message::net_message()` — default constructor; sets
`body_length_` to 0 and leaves `data_` uninitialized (the indeterminate
contents are the `uninit` parameter). -/
def default_ctor (uninit : Nat → Nat) : net_message :=
  { data_ := uninit, body_length_ := 0 }

/-- `net_message::net_message(const char* body, std::size_t length)` —
the encode-side constructor.  Sets `body_length_ = length` (NOT truncated:
when `length > max_body_length` the source only prints a warning), writes
`sprintf("%4d", length)` into the first 4 bytes of `data_`, then
`memcpy(data_ + header_length, body, body_length_)` — which, for
`length > max_body_length`, writes past the end of the 516-byte array.
`uninit` is the indeterminate initial content of the member array
`data_`. -/
def body_ctor (body : Nat → Nat) (length : Nat) (uninit : Nat → Nat) : net_message :=
  let header := sprintf4 length
  let d1 := memcpy uninit 0 (fun i => header.getD i 0) header_length
  let d2 := memcpy d1 header_length body length
  { data_ := d2, body_length_ := length }

/-- `net_message::net_message(const net_message& other)` — copy
constructor: copies `body_length_` and
`memcpy(data_, other.data_, other.body_length_ + header_length)`
(header plus body, a full deep copy).  `uninit` is the indeterminate
initial content of the new object's `data_`. -/
def copy_ctor (other : net_message) (uninit : Nat → Nat) : net_message :=
  { data_ := memcpy uninit 0 other.data_ (other.body_length_ + header_length),
    body_length_ := other.body_length_ }

/-- `net_message::operator=(const net_message& other)` — copies
`body_length_` and then `memcpy(data_, other.data_, other.body_length_)`:
note the length is `other.body_length_` alone, without `+ header_length`,
exactly as in the source. -/
def assign (target other : net_message) : net_message :=
  { data_ := memcpy target.data_ 0 other.data_ other.body_length_,
    body_length_ := other.body_length_ }

/-- `net_message::get_data()` — pointer to the start of the buffer. -/
def get_data (m : net_message) : Nat → Nat := m.data_

/-- `net_message::get_body()` — pointer to `data_ + header_length`. -/
def get_body (m : net_message) : Nat → Nat := fun i => m.data_ (header_length + i)

/-- `net_message::get_body_length()`. -/
def get_body_length (m : net_message) : Nat := m.body_length_

/-- `net_message::decode_header()` — copies the first `header_length`
bytes of `data_` into a local `char header[header_length + 1]` WITHOUT
NUL-terminating it (`header[header_length]` is never written), and stores
`std::atoi(header)` into `body_length_`.  `atoi` therefore reads the
indeterminate stack bytes at `header[4]` and beyond whenever the four
copied characters parse as digits up to the end; those bytes are the
`junk` parameter.  When the result exceeds `max_body_length` the source
only prints a warning — the value is stored unchanged. -/
def decode_header (m : net_message) (junk : List Nat) : net_message :=
  let buf := [m.data_ 0, m.data_ 1, m.data_ 2, m.data_ 3] ++ junk
  { m with body_length_ := sizeT (atoi buf) }

end net_message

/-- `boost::system::error_code` values as classified by the connection
code: success, `boost::asio::error::eof`,
`boost::asio::error::connection_reset`, and any other error. -/
inductive ReadErr
  | ok
  | eof
  | connectionReset
  | other
deriving DecidableEq

/-- Position of a connection's read loop: a header read outstanding, a
body read outstanding, or torn down (the handler returned without issuing
a further read after invoking the disconnect callback). -/
inductive ReadPhase
  | awaitingHeader
  | awaitingBody
  | disconnected
deriving DecidableEq

/-- The `tcp_connection` class (server side of a peer).  `id_`, `valid_`
and `write_messages_` are the members of the source class;
`outstanding_writes` counts `async_write` operations in flight,
`written` records the frames whose `async_write` completed (in completion
order), `read_phase` is the position of the read loop, and
`disconnect_calls` / `delivered` count invocations of the `disconnect_`
and `read_handler_` callbacks. -/
structure tcp_connection where
  id_ : Nat
  valid_ : Bool
  write_messages_ : List net_message
  outstanding_writes : Nat
  written : List net_message
  read_phase : ReadPhase
  disconnect_calls : Nat
  delivered : Nat

namespace tcp_connection

/-- `tcp_connection::tcp_connection(socket, id, read_handler, disconnect)`
— sets `valid_ = true` and the id; the write queue is empty and nothing
is in flight.  `read_phase` is `awaitingHeader`, the state right after
`start()` has issued the first header read (the greeting frame sent by
`start()` is modelled as an ordinary `send` event). -/
def ctor (id : Nat) : tcp_connection :=
  { id_ := id, valid_ := true, write_messages_ := [], outstanding_writes := 0,
    written := [], read_phase := ReadPhase.awaitingHeader,
    disconnect_calls := 0, delivered := 0 }

/-- `tcp_connection::get_id()`. -/
def get_id (s : tcp_connection) : Nat := s.id_

/-- `tcp_connection::valid()`. -/
def valid (s : tcp_connection) : Bool := s.valid_

/-- `tcp_connection::do_write()` — starts one `async_write` on the frame
at the head of the queue.  The completion handler is a separate event
(`write_completion`). -/
def do_write (s : tcp_connection) : tcp_connection :=
  { s with outstanding_writes := s.outstanding_writes + 1 }

/-- `tcp_connection::send(net_message msg)` — enqueues the frame and, if
the queue was empty before the enqueue (`write_in_progress == false`),
calls `do_write()`.  (The source takes the message by value so that the
deep-copying copy constructor runs; in this pure model the queue simply
holds the frame.) -/
def send (s : tcp_connection) (msg : net_message) : tcp_connection :=
  let write_in_progress := !s.write_messages_.isEmpty
  let s1 := { s with write_messages_ := s.write_messages_ ++ [msg] }
  if write_in_progress then s1 else do_write s1

/-- The completion lambda inside `tcp_connection::do_write()`: on success
(`!ec`) pop the front frame and, if the queue is still non-empty, call
`do_write()` again; on error only log — the frame stays queued and no
further write is started. -/
def write_completion (s : tcp_connection) (e : ReadErr) : tcp_connection :=
  let s0 := { s with outstanding_writes := s.outstanding_writes - 1 }
  if e = ReadErr.ok then
    match s0.write_messages_ with
    | [] => s0
    | m :: rest =>
        let s1 := { s0 with write_messages_ := rest, written := s0.written ++ [m] }
        if rest.isEmpty then s1 else do_write s1
  else s0

/-- `tcp_connection::handle_read_header(e, n)` — if `e` is `eof` or
`connection_reset`, invoke the `disconnect_` callback (after which the
handler returns without issuing another read); OTHERWISE — including any
other error — decode the header and call `read_body()`. -/
def handle_read_header (s : tcp_connection) (e : ReadErr) : tcp_connection :=
  if e = ReadErr.eof ∨ e = ReadErr.connectionReset then
    { s with read_phase := ReadPhase.disconnected,
             disconnect_calls := s.disconnect_calls + 1 }
  else
    { s with read_phase := ReadPhase.awaitingBody }

/-- `tcp_connection::handle_read_body(e, n)` — the error code is ignored:
the body is handed to `read_handler_` and `read_header()` restarts the
loop. -/
def handle_read_body (s : tcp_connection) (e : ReadErr) : tcp_connection :=
  { s with read_phase := ReadPhase.awaitingHeader,
           delivered := s.delivered + 1 }

/-- `tcp_connection::read_body()` issues
`async_read(socket_, buffer(get_data() + header_length, get_body_length()))`:
the length of the body read is exactly the decoded `body_length_`,
unbounded. -/
def read_body_len (m : net_message) : Nat := m.get_body_length

end tcp_connection

/-- An asynchronous completion or an application call on one connection. -/
inductive ConnEvent
  | send (m : net_message)
  | write_done (e : ReadErr)
  | header_done (e : ReadErr)
  | body_done (e : ReadErr)

/-- One scheduler step on a connection.  Completion events fire only when
the corresponding operation is outstanding (a read completion can only
occur for a read that was issued; after a disconnect no read is issued so
no read completion can occur). -/
def connStep (s : tcp_connection) : ConnEvent → tcp_connection
  | ConnEvent.send m => tcp_connection.send s m
  | ConnEvent.write_done e =>
      if s.outstanding_writes = 0 then s else tcp_connection.write_completion s e
  | ConnEvent.header_done e =>
      if s.read_phase = ReadPhase.awaitingHeader then tcp_connection.handle_read_header s e else s
  | ConnEvent.body_done e =>
      if s.read_phase = ReadPhase.awaitingBody then tcp_connection.handle_read_body s e else s

/-- Run a connection over a sequence of events. -/
def runConn (s : tcp_connection) (evs : List ConnEvent) : tcp_connection :=
  evs.foldl connStep s

/-- The frames passed to `tcp_connection::send`, in call order. -/
def sentFrames : List ConnEvent → List net_message
  | [] => []
  | ConnEvent.send m :: evs => m :: sentFrames evs
  | _ :: evs => sentFrames evs

/-- The read side of the `net_client` class: the position of its read
loop and the number of messages handed to the user's `read_handler_`.
(Its write queue is textually the same code as `tcp_connection`'s.) -/
structure net_client where
  read_phase : ReadPhase
  delivered : Nat

namespace net_client

/-- State of a freshly constructed `net_client`: `connect()` has
succeeded and `read_header()` has issued the first header read. -/
def ctor : net_client :=
  { read_phase := ReadPhase.awaitingHeader, delivered := 0 }

/-- `net_client::handle_read_header(e, n)` — the error code `e` is never
examined: the header is decoded and `read_body()` is called
unconditionally. -/
def handle_read_header (s : net_client) (e : ReadErr) : net_client :=
  { s with read_phase := ReadPhase.awaitingBody }

/-- `net_client::handle_read_body(e, n)` — the error code `e` is never
examined: the body is handed to `read_handler_` and `read_header()`
restarts the loop unconditionally. -/
def handle_read_body (s : net_client) (e : ReadErr) : net_client :=
  { s with read_phase := ReadPhase.awaitingHeader,
           delivered := s.delivered + 1 }

end net_client

/-- A read completion on the client's socket. -/
inductive ClientEvent
  | header_done (e : ReadErr)
  | body_done (e : ReadErr)

/-- One scheduler step on the client: a completion fires only for the
read that is actually outstanding. -/
def clientStep (s : net_client) : ClientEvent → net_client
  | ClientEvent.header_done e =>
      if s.read_phase = ReadPhase.awaitingHeader then net_client.handle_read_header s e else s
  | ClientEvent.body_done e =>
      if s.read_phase = ReadPhase.awaitingBody then net_client.handle_read_body s e else s

/-- Run the client read loop over a sequence of completions. -/
def runClient (s : net_client) (evs : List ClientEvent) : net_client :=
  evs.foldl clientStep s

/-- Replace the error code of a completion by success, leaving the event
kind unchanged. -/
def eraseClientErr : ClientEvent → ClientEvent
  | ClientEvent.header_done _ => ClientEvent.header_done ReadErr.ok
  | ClientEvent.body_done _ => ClientEvent.body_done ReadErr.ok

/-- Update the element at position `i` of a list (the effect of mutating
through an iterator into `connections_`). -/
def listModify : List α → Nat → (α → α) → List α
  | [], _, _ => []
  | a :: rest, 0, f => f a :: rest
  | a :: rest, Nat.succ n, f => a :: listModify rest n f

/-- The `net_server` class: the id counter `next_id_` and the connection
list `connections_` are the members of the source class; `accept_calls`
records the invocations of the application's `accept_handler` (id and the
connect/disconnect flag) and `assigned` the ids handed out by the accept
loop, in order. -/
structure net_server where
  next_id_ : Nat
  connections_ : List tcp_connection
  accept_calls : List (Nat × Bool)
  assigned : List Nat

namespace net_server

/-- `net_server::net_server(...)` — `next_id_` starts at 0 and the
connection list is empty. -/
def ctor : net_server :=
  { next_id_ := 0, connections_ := [], accept_calls := [], assigned := [] }

/-- The success path of the lambda in `net_server::start_accept()`:
`id = next_id_++`, a new `tcp_connection` is constructed and appended to
`connections_` (under the lock), `start()` is called on it, and
`accept_handler_(id, true)` is invoked. -/
def accept_connection (srv : net_server) : net_server :=
  let id := srv.next_id_
  { srv with
      next_id_ := id + 1,
      connections_ := srv.connections_ ++ [tcp_connection.ctor id],
      assigned := srv.assigned ++ [id],
      accept_calls := srv.accept_calls ++ [(id, true)] }

/-- `net_server::client_disconnect(connection)` — removes the connection
from `connections_` (under the lock; `std::list::remove` erases the
elements equal to that `shared_ptr`, i.e. exactly that connection since
ids are unique) and invokes `accept_handler_(id, false)`. -/
def client_disconnect (srv : net_server) (id : Nat) : net_server :=
  { srv with
      connections_ := srv.connections_.filter (fun c => c.id_ ≠ id),
      accept_calls := srv.accept_calls ++ [(id, false)] }

/-- Index returned by
`std::lower_bound(connections_.begin(), connections_.end(), id, cmp)`
with `cmp(c, id) = c->get_id() < id` on the (sorted) list: the first
position whose element does not satisfy `cmp`, or the length of the list
(`end()`) when all do. -/
def lower_bound_idx : List tcp_connection → Nat → Nat
  | [], _ => 0
  | c :: rest, id => if c.id_ < id then lower_bound_idx rest id + 1 else 0

/-- `net_server::find_connection(id)` — dereferences the `lower_bound`
iterator unless it is `end()` (in which case `nullptr` is returned).
Note the source never compares the found element's id with `id`. -/
def find_connection (srv : net_server) (id : Nat) : Option tcp_connection :=
  srv.connections_.get? (lower_bound_idx srv.connections_ id)

/-- `net_server::send_to(id, body, length)` — on a null `find_connection`
result, logs "client not found" and returns without writing (the `Bool`
in the result is `false`); otherwise constructs a `net_message` from the
body and calls `send` on the connection the iterator points at. -/
def send_to (srv : net_server) (id : Nat) (body : Nat → Nat) (length : Nat) :
    net_server × Bool :=
  match find_connection srv id with
  | none => (srv, false)
  | some _ =>
      let msg := net_message.body_ctor body length (fun _ => 0)
      ({ srv with
           connections_ :=
             listModify srv.connections_ (lower_bound_idx srv.connections_ id)
               (fun c => tcp_connection.send c msg) },
       true)

/-- `net_server::send_to_all(body, length)` — one `net_message` is
built, and for every connection in registry order: connections with
`valid() == false` are skipped (`continue`), the rest get the frame
enqueued by `send` (which copies it). -/
def send_to_all (srv : net_server) (body : Nat → Nat) (length : Nat) : net_server :=
  let msg := net_message.body_ctor body length (fun _ => 0)
  { srv with
      connections_ :=
        srv.connections_.map
          (fun c => if c.valid_ then tcp_connection.send c msg else c) }

/-- `net_server::send_to_all_except(id, body, length)` — like
`send_to_all` but a connection whose id equals `id` is skipped first,
then the `valid()` check runs. -/
def send_to_all_except (srv : net_server) (id : Nat) (body : Nat → Nat)
    (length : Nat) : net_server :=
  let msg := net_message.body_ctor body length (fun _ => 0)
  { srv with
      connections_ :=
        srv.connections_.map
          (fun c =>
            if c.id_ = id then c
            else if c.valid_ then tcp_connection.send c msg else c) }

end net_server

/-- Registry-level events: an accepted connection or a disconnect of the
connection with a given id. -/
inductive SrvEvent
  | accept
  | disconnect (id : Nat)

/-- One step of the registry. -/
def srvStep (s : net_server) : SrvEvent → net_server
  | SrvEvent.accept => net_server.accept_connection s
  | SrvEvent.disconnect id => net_server.client_disconnect s id

/-- Run the registry over a sequence of accept/disconnect events. -/
def runSrv (s : net_server) (evs : List SrvEvent) : net_server :=
  evs.foldl srvStep s

/-- Number of accepted connections in an event sequence. -/
def countAccepts : List SrvEvent → Nat
  | [] => 0
  | SrvEvent.accept :: evs => countAccepts evs + 1
  | SrvEvent.disconnect _ :: evs => countAccepts evs

/-- The digit loop of `atoi` stops immediately on this memory: it is
either exhausted or starts with a non-digit byte. -/
def stopsParse : List Nat → Prop
  | [] => True
  | c :: _ => ¬isDigitCode c

instance : (l : List Nat) → Decidable (stopsParse l)
  | [] => Decidable.isTrue trivial
  | c :: _ => inferInstanceAs (Decidable ¬isDigitCode c)

/-- Write-loop invariant of a connection: at most one `async_write` is in
flight, and a write in flight targets the head of a non-empty queue. -/
def write_inv (s : tcp_connection) : Prop :=
  s.outstanding_writes ≤ 1 ∧
  (s.outstanding_writes = 1 → s.write_messages_ ≠ [])

/-- Read-loop invariant of a connection started with no disconnect yet:
the disconnect callback has run exactly once when and only when the loop
reached `disconnected`. -/
def read_inv (s : tcp_connection) : Prop :=
  (s.read_phase = ReadPhase.disconnected ∧ s.disconnect_calls = 1) ∨
  (s.read_phase ≠ ReadPhase.disconnected ∧ s.disconnect_calls = 0)

/-- Registry invariant: the assigned ids are exactly `0, 1, …,
next_id_ - 1` in order, the connection list is strictly sorted by id, and
every present id is below `next_id_`. -/
def reg_inv (s : net_server) : Prop :=
  s.assigned = List.range s.next_id_ ∧
  List.Pairwise (fun a b : tcp_connection => a.id_ < b.id_) s.connections_ ∧
  ∀ c ∈ s.connections_, c.id_ < s.next_id_

/-! ## Codec lemmas -/

lemma isSpaceCode_digit (d : Nat) : (isSpaceCode (48 + d) = true) = False := by
  simp [isSpaceCode]
  omega

lemma parseDigitsAcc_digit (d : Nat) (hd : d ≤ 9) (rest : List Nat) (acc : Nat) :
    parseDigitsAcc ((48 + d) :: rest) acc = parseDigitsAcc rest (acc * 10 + d) := by
  have h : isDigitCode (48 + d) := by constructor <;> omega
  simp only [parseDigitsAcc, if_pos h, Nat.add_sub_cancel_left]

lemma parseDigitsAcc_stops (junk : List Nat) (hj : stopsParse junk) (acc : Nat) :
    parseDigitsAcc junk acc = acc := by
  cases junk with
  | nil => rfl
  | cons c rest =>
      have hc : ¬isDigitCode c := hj
      simp only [parseDigitsAcc, if_neg hc]

lemma sprintf4_length (n : Nat) : (sprintf4 n).length = 4 := by
  unfold sprintf4
  split
  · rfl
  split
  · rfl
  split <;> rfl

/-- `atoi` reads back exactly the number printed by `sprintf("%4d", n)`,
whatever memory follows, as long as the byte right after the digits does
not parse as a further digit. -/
lemma atoiSigned_digit (d : Nat) (hd : d ≤ 9) (rest : List Nat) :
    atoiSigned ((48 + d) :: rest) = (parseDigitsAcc ((48 + d) :: rest) 0 : Int) := by
  have h45 : ¬(48 + d = 45) := by omega
  have h43 : ¬(48 + d = 43) := by omega
  simp only [atoiSigned, if_neg h45, if_neg h43]

lemma atoi_sprintf4 (n : Nat) (hn : n ≤ 9999) (junk : List Nat) (hj : stopsParse junk) :
    atoi (sprintf4 n ++ junk) = n := by
  have h10 : ∀ m : Nat, m % 10 ≤ 9 := fun m => Nat.lt_succ_iff.mp (Nat.mod_lt _ (by omega))
  unfold sprintf4
  split
  · next h1 =>
    show atoi (spc :: spc :: spc :: (48 + n) :: junk) = n
    rw [atoi]
    simp only [List.dropWhile_cons, show isSpaceCode spc = true from rfl, if_true,
      isSpaceCode_digit, if_false]
    rw [atoiSigned_digit n (by omega)]
    rw [parseDigitsAcc_digit n (by omega), parseDigitsAcc_stops junk hj]
    push_cast
    omega
  split
  · next h1 h2 =>
    show atoi (spc :: spc :: (48 + n / 10) :: (48 + n % 10) :: junk) = n
    rw [atoi]
    simp only [List.dropWhile_cons, show isSpaceCode spc = true from rfl, if_true,
      isSpaceCode_digit, if_false]
    rw [atoiSigned_digit (n / 10) (by omega)]
    rw [parseDigitsAcc_digit (n / 10) (by omega), parseDigitsAcc_digit (n % 10) (h10 n),
      parseDigitsAcc_stops junk hj]
    push_cast
    omega
  split
  · next h1 h2 h3 =>
    show atoi (spc :: (48 + n / 100) :: (48 + n / 10 % 10) :: (48 + n % 10) :: junk) = n
    rw [atoi]
    simp only [List.dropWhile_cons, show isSpaceCode spc = true from rfl, if_true,
      isSpaceCode_digit, if_false]
    rw [atoiSigned_digit (n / 100) (by omega)]
    rw [parseDigitsAcc_digit (n / 100) (by omega), parseDigitsAcc_digit (n / 10 % 10) (h10 _),
      parseDigitsAcc_digit (n % 10) (h10 n), parseDigitsAcc_stops junk hj]
    push_cast
    omega
  · next h1 h2 h3 =>
    show atoi ((48 + n / 1000 % 10) :: (48 + n / 100 % 10) :: (48 + n / 10 % 10)
        :: (48 + n % 10) :: junk) = n
    rw [atoi]
    simp only [List.dropWhile_cons, isSpaceCode_digit, if_false]
    rw [atoiSigned_digit (n / 1000 % 10) (h10 _)]
    rw [parseDigitsAcc_digit (n / 1000 % 10) (h10 _), parseDigitsAcc_digit (n / 100 % 10) (h10 _),
      parseDigitsAcc_digit (n / 10 % 10) (h10 _), parseDigitsAcc_digit (n % 10) (h10 n),
      parseDigitsAcc_stops junk hj]
    push_cast
    omega

lemma sizeT_coe (n : Nat) (h : n < 2 ^ 64) : sizeT (n : Int) = n := by
  unfold sizeT
  rw [Int.emod_eq_of_lt (by positivity) (by exact_mod_cast h)]
  simp

/-- The first four bytes of an encoded frame are the `sprintf("%4d", n)`
header. -/
lemma body_ctor_data_header (body uninit : Nat → Nat) (n i : Nat) (hi : i < header_length) :
    (net_message.body_ctor body n uninit).data_ i = (sprintf4 n).getD i 0 := by
  have h1 : ¬(header_length ≤ i ∧ i < header_length + n) := by
    unfold header_length at hi ⊢; omega
  have h2 : 0 ≤ i ∧ i < 0 + header_length := by omega
  simp [net_message.body_ctor, memcpy, h1, h2]
  intro h3
  exact absurd h3 (by unfold header_length at hi ⊢; omega)

lemma body_ctor_header_list (body uninit : Nat → Nat) (n : Nat) :
    [(net_message.body_ctor body n uninit).data_ 0,
     (net_message.body_ctor body n uninit).data_ 1,
     (net_message.body_ctor body n uninit).data_ 2,
     (net_message.body_ctor body n uninit).data_ 3] = sprintf4 n := by
  rw [body_ctor_data_header body uninit n 0 (by decide),
    body_ctor_data_header body uninit n 1 (by decide),
    body_ctor_data_header body uninit n 2 (by decide),
    body_ctor_data_header body uninit n 3 (by decide)]
  unfold sprintf4
  split
  · rfl
  split
  · rfl
  split <;> rfl

/-- The body bytes of an encoded frame are the input body bytes. -/
lemma body_ctor_get_body (body uninit : Nat → Nat) (n i : Nat) (hi : i < n) :
    (net_message.body_ctor body n uninit).get_body i = body i := by
  have h1 : header_length ≤ header_length + i ∧ header_length + i < header_length + n := by
    omega
  simp [net_message.get_body, net_message.body_ctor, memcpy, h1]

/-- Decoding the header of an encoded frame recovers the encoded length,
provided the indeterminate stack memory after the copied header bytes
stops the `atoi` digit loop. -/
lemma decode_body_ctor (body uninit : Nat → Nat) (n : Nat) (junk : List Nat)
    (hn : n ≤ 9999) (hj : stopsParse junk) :
    ((net_message.body_ctor body n uninit).decode_header junk).get_body_length = n := by
  unfold net_message.decode_header net_message.get_body_length
  simp only
  rw [show [(net_message.body_ctor body n uninit).data_ 0,
        (net_message.body_ctor body n uninit).data_ 1,
        (net_message.body_ctor body n uninit).data_ 2,
        (net_message.body_ctor body n uninit).data_ 3] ++ junk = sprintf4 n ++ junk from by
      rw [body_ctor_header_list]]
  rw [atoi_sprintf4 n hn junk hj]
  exact sizeT_coe n (by omega)

/-- `decode_header` does not touch the buffer: only the tracked length
changes. -/
lemma decode_header_data (m : net_message) (junk : List Nat) :
    (m.decode_header junk).data_ = m.data_ := rfl

/-- The copy constructor is a full deep copy: the tracked length and every
byte of the header-plus-body region are taken from the source object. -/
lemma copy_ctor_deep (other : net_message) (uninit : Nat → Nat) :
    (other.copy_ctor uninit).body_length_ = other.body_length_ ∧
    ∀ i < other.body_length_ + header_length, (other.copy_ctor uninit).data_ i = other.data_ i := by
  refine ⟨rfl, fun i hi => ?_⟩
  have h : 0 ≤ i ∧ i < 0 + (other.body_length_ + header_length) := by omega
  simp [net_message.copy_ctor, memcpy, h]
  intro h3
  exact absurd h3 (by omega)

/-! ## Connection write-loop lemmas -/

lemma send_write_messages (s : tcp_connection) (m : net_message) :
    (tcp_connection.send s m).write_messages_ = s.write_messages_ ++ [m] := by
  cases h : s.write_messages_.isEmpty <;>
    simp [tcp_connection.send, tcp_connection.do_write, h]

lemma send_outstanding (s : tcp_connection) (m : net_message) :
    (tcp_connection.send s m).outstanding_writes =
      if s.write_messages_.isEmpty then s.outstanding_writes + 1
      else s.outstanding_writes := by
  cases h : s.write_messages_.isEmpty <;>
    simp [tcp_connection.send, tcp_connection.do_write, h]

lemma send_other_fields (s : tcp_connection) (m : net_message) :
    (tcp_connection.send s m).written = s.written ∧
    (tcp_connection.send s m).read_phase = s.read_phase ∧
    (tcp_connection.send s m).disconnect_calls = s.disconnect_calls ∧
    (tcp_connection.send s m).delivered = s.delivered ∧
    (tcp_connection.send s m).valid_ = s.valid_ ∧
    (tcp_connection.send s m).id_ = s.id_ := by
  cases h : s.write_messages_.isEmpty <;>
    simp [tcp_connection.send, tcp_connection.do_write, h]

lemma write_completion_ok (s : tcp_connection) (m : net_message) (rest : List net_message)
    (hq : s.write_messages_ = m :: rest) :
    (tcp_connection.write_completion s ReadErr.ok).write_messages_ = rest ∧
    (tcp_connection.write_completion s ReadErr.ok).written = s.written ++ [m] ∧
    (tcp_connection.write_completion s ReadErr.ok).outstanding_writes =
      (if rest.isEmpty then s.outstanding_writes - 1
       else s.outstanding_writes - 1 + 1) := by
  cases h : rest.isEmpty <;>
    simp [tcp_connection.write_completion, tcp_connection.do_write, hq, h]

lemma write_completion_err (s : tcp_connection) (e : ReadErr) (he : ¬e = ReadErr.ok) :
    (tcp_connection.write_completion s e).write_messages_ = s.write_messages_ ∧
    (tcp_connection.write_completion s e).written = s.written ∧
    (tcp_connection.write_completion s e).outstanding_writes =
      s.outstanding_writes - 1 := by
  unfold tcp_connection.write_completion
  rw [if_neg he]
  exact ⟨rfl, rfl, rfl⟩

lemma write_completion_other_fields (s : tcp_connection) (e : ReadErr) :
    (tcp_connection.write_completion s e).read_phase = s.read_phase ∧
    (tcp_connection.write_completion s e).disconnect_calls = s.disconnect_calls ∧
    (tcp_connection.write_completion s e).delivered = s.delivered ∧
    (tcp_connection.write_completion s e).valid_ = s.valid_ ∧
    (tcp_connection.write_completion s e).id_ = s.id_ := by
  by_cases he : e = ReadErr.ok
  · cases hq : s.write_messages_ with
    | nil => simp [tcp_connection.write_completion, tcp_connection.do_write, he, hq]
    | cons m rest =>
        cases h : rest.isEmpty <;>
          simp [tcp_connection.write_completion, tcp_connection.do_write, he, hq, h]
  · simp [tcp_connection.write_completion, tcp_connection.do_write, he]

/-! ## Connection read-loop lemmas -/

lemma handle_read_header_disc (s : tcp_connection) (e : ReadErr)
    (he : e = ReadErr.eof ∨ e = ReadErr.connectionReset) :
    tcp_connection.handle_read_header s e =
      { s with read_phase := ReadPhase.disconnected,
               disconnect_calls := s.disconnect_calls + 1 } := by
  unfold tcp_connection.handle_read_header
  rw [if_pos he]

lemma handle_read_header_cont (s : tcp_connection) (e : ReadErr)
    (he : ¬(e = ReadErr.eof ∨ e = ReadErr.connectionReset)) :
    tcp_connection.handle_read_header s e =
      { s with read_phase := ReadPhase.awaitingBody } := by
  unfold tcp_connection.handle_read_header
  rw [if_neg he]

lemma handle_read_body_eq (s : tcp_connection) (e : ReadErr) :
    tcp_connection.handle_read_body s e =
      { s with read_phase := ReadPhase.awaitingHeader,
               delivered := s.delivered + 1 } := rfl

lemma handle_read_header_write_fields (s : tcp_connection) (e : ReadErr) :
    (tcp_connection.handle_read_header s e).write_messages_ = s.write_messages_ ∧
    (tcp_connection.handle_read_header s e).written = s.written ∧
    (tcp_connection.handle_read_header s e).outstanding_writes = s.outstanding_writes ∧
    (tcp_connection.handle_read_header s e).valid_ = s.valid_ ∧
    (tcp_connection.handle_read_header s e).id_ = s.id_ := by
  unfold tcp_connection.handle_read_header
  split <;> exact ⟨rfl, rfl, rfl, rfl, rfl⟩

/-! ## Connection step lemmas -/

lemma runConn_nil (s : tcp_connection) : runConn s [] = s := rfl

lemma runConn_cons (s : tcp_connection) (ev : ConnEvent) (evs : List ConnEvent) :
    runConn s (ev :: evs) = runConn (connStep s ev) evs := rfl

lemma connStep_valid_id (s : tcp_connection) (ev : ConnEvent) :
    (connStep s ev).valid_ = s.valid_ ∧ (connStep s ev).id_ = s.id_ := by
  cases ev with
  | send m => exact ⟨(send_other_fields s m).2.2.2.2.1, (send_other_fields s m).2.2.2.2.2⟩
  | write_done e =>
      simp only [connStep]
      split
      · exact ⟨rfl, rfl⟩
      · exact ⟨(write_completion_other_fields s e).2.2.2.1,
          (write_completion_other_fields s e).2.2.2.2⟩
  | header_done e =>
      simp only [connStep]
      split
      · exact ⟨(handle_read_header_write_fields s e).2.2.2.1,
          (handle_read_header_write_fields s e).2.2.2.2⟩
      · exact ⟨rfl, rfl⟩
  | body_done e =>
      simp only [connStep]
      split
      · exact ⟨rfl, rfl⟩
      · exact ⟨rfl, rfl⟩

lemma runConn_valid_id (s : tcp_connection) (evs : List ConnEvent) :
    (runConn s evs).valid_ = s.valid_ ∧ (runConn s evs).id_ = s.id_ := by
  induction evs generalizing s with
  | nil => exact ⟨rfl, rfl⟩
  | cons ev evs ih =>
      rw [runConn_cons]
      obtain ⟨h1, h2⟩ := connStep_valid_id s ev
      obtain ⟨h3, h4⟩ := ih (connStep s ev)
      exact ⟨h1 ▸ h3, h2 ▸ h4⟩

lemma connStep_write (s : tcp_connection) (ev : ConnEvent) (h : write_inv s) :
    write_inv (connStep s ev) ∧
    (connStep s ev).written ++ (connStep s ev).write_messages_ =
      s.written ++ s.write_messages_ ++ sentFrames [ev] := by
  obtain ⟨hle, hne⟩ := h
  cases ev with
  | send m =>
      simp only [connStep]
      have hq := send_write_messages s m
      have ho := send_outstanding s m
      have hw := (send_other_fields s m).1
      refine ⟨⟨?_, ?_⟩, ?_⟩
      · rw [ho]
        split
        · next hemp =>
          have hq0 : s.write_messages_ = [] := List.isEmpty_iff.mp hemp
          have h0 : s.outstanding_writes ≠ 1 := fun h1 => (hne h1) hq0
          omega
        · exact hle
      · intro h1
        rw [hq]
        simp
      · rw [hq, hw]
        simp [sentFrames]
  | write_done e =>
      simp only [connStep]
      split
      · exact ⟨⟨hle, hne⟩, by simp [sentFrames]⟩
      · next hout =>
        have h1 : s.outstanding_writes = 1 := by omega
        by_cases he : e = ReadErr.ok
        · subst he
          obtain ⟨m, rest, hq⟩ : ∃ m rest, s.write_messages_ = m :: rest := by
            cases hq : s.write_messages_ with
            | nil => exact absurd hq (hne h1)
            | cons m rest => exact ⟨m, rest, rfl⟩
          obtain ⟨ha, hb, hc⟩ := write_completion_ok s m rest hq
          refine ⟨⟨?_, ?_⟩, ?_⟩
          · rw [hc]
            split <;> omega
          · intro h2
            rw [hc] at h2
            rw [ha]
            intro hr
            subst hr
            simp at h2
            omega
          · rw [ha, hb, hq]
            simp [sentFrames]
        · obtain ⟨ha, hb, hc⟩ := write_completion_err s e he
          refine ⟨⟨by omega, ?_⟩, ?_⟩
          · intro h2
            rw [hc] at h2
            rw [ha]
            intro hr
            exact (hne h1) hr
          · rw [ha, hb]
            simp [sentFrames]
  | header_done e =>
      simp only [connStep]
      split
      · obtain ⟨ha, hb, hc, _, _⟩ := handle_read_header_write_fields s e
        refine ⟨⟨hc ▸ hle, fun h2 => ha ▸ hne (hc ▸ h2)⟩, by rw [ha, hb]; simp [sentFrames]⟩
      · exact ⟨⟨hle, hne⟩, by simp [sentFrames]⟩
  | body_done e =>
      simp only [connStep]
      split
      · exact ⟨⟨hle, hne⟩, by simp [sentFrames, tcp_connection.handle_read_body]⟩
      · exact ⟨⟨hle, hne⟩, by simp [sentFrames]⟩

lemma runConn_write (s : tcp_connection) (evs : List ConnEvent) (h : write_inv s) :
    write_inv (runConn s evs) ∧
    (runConn s evs).written ++ (runConn s evs).write_messages_ =
      s.written ++ s.write_messages_ ++ sentFrames evs := by
  induction evs generalizing s with
  | nil => exact ⟨h, by simp [runConn_nil, sentFrames]⟩
  | cons ev evs ih =>
      obtain ⟨h1, h2⟩ := connStep_write s ev h
      obtain ⟨h3, h4⟩ := ih (connStep s ev) h1
      refine ⟨h3, ?_⟩
      rw [runConn_cons, h4, h2]
      cases ev <;> simp [sentFrames]

lemma connStep_read_inv (s : tcp_connection) (ev : ConnEvent) (h : read_inv s) :
    read_inv (connStep s ev) := by
  cases ev with
  | send m =>
      obtain ⟨_, hp, hd, _, _, _⟩ := send_other_fields s m
      rcases h with ⟨h1, h2⟩ | ⟨h1, h2⟩
      · exact Or.inl ⟨hp ▸ h1, hd ▸ h2⟩
      · exact Or.inr ⟨hp ▸ h1, hd ▸ h2⟩
  | write_done e =>
      simp only [connStep]
      split
      · exact h
      · obtain ⟨hp, hd, _, _, _⟩ := write_completion_other_fields s e
        rcases h with ⟨h1, h2⟩ | ⟨h1, h2⟩
        · exact Or.inl ⟨hp ▸ h1, hd ▸ h2⟩
        · exact Or.inr ⟨hp ▸ h1, hd ▸ h2⟩
  | header_done e =>
      simp only [connStep]
      split
      · next hph =>
        have h2 : s.disconnect_calls = 0 := by
          rcases h with ⟨h1, _⟩ | ⟨_, h2⟩
          · rw [hph] at h1; exact absurd h1 (by simp)
          · exact h2
        by_cases he : e = ReadErr.eof ∨ e = ReadErr.connectionReset
        · rw [handle_read_header_disc s e he]
          exact Or.inl ⟨rfl, by simp [h2]⟩
        · rw [handle_read_header_cont s e he]
          exact Or.inr ⟨by simp, h2⟩
      · exact h
  | body_done e =>
      simp only [connStep]
      split
      · next hph =>
        have h2 : s.disconnect_calls = 0 := by
          rcases h with ⟨h1, _⟩ | ⟨_, h2⟩
          · rw [hph] at h1; exact absurd h1 (by simp)
          · exact h2
        rw [handle_read_body_eq]
        exact Or.inr ⟨by simp, h2⟩
      · exact h

lemma runConn_read_inv (s : tcp_connection) (evs : List ConnEvent) (h : read_inv s) :
    read_inv (runConn s evs) := by
  induction evs generalizing s with
  | nil => exact h
  | cons ev evs ih => exact ih (connStep s ev) (connStep_read_inv s ev h)

lemma connStep_disconnected (s : tcp_connection) (ev : ConnEvent)
    (hp : s.read_phase = ReadPhase.disconnected) :
    (connStep s ev).read_phase = ReadPhase.disconnected ∧
    (connStep s ev).disconnect_calls = s.disconnect_calls ∧
    (connStep s ev).delivered = s.delivered := by
  cases ev with
  | send m =>
      obtain ⟨_, h1, h2, h3, _, _⟩ := send_other_fields s m
      exact ⟨h1 ▸ hp, h2, h3⟩
  | write_done e =>
      simp only [connStep]
      split
      · exact ⟨hp, rfl, rfl⟩
      · obtain ⟨h1, h2, h3, _, _⟩ := write_completion_other_fields s e
        exact ⟨h1 ▸ hp, h2, h3⟩
  | header_done e =>
      simp only [connStep]
      split
      · next hph => rw [hp] at hph; exact absurd hph (by simp)
      · exact ⟨hp, rfl, rfl⟩
  | body_done e =>
      simp only [connStep]
      split
      · next hph => rw [hp] at hph; exact absurd hph (by simp)
      · exact ⟨hp, rfl, rfl⟩

lemma runConn_disconnected (s : tcp_connection) (evs : List ConnEvent)
    (hp : s.read_phase = ReadPhase.disconnected) :
    (runConn s evs).read_phase = ReadPhase.disconnected ∧
    (runConn s evs).disconnect_calls = s.disconnect_calls ∧
    (runConn s evs).delivered = s.delivered := by
  induction evs generalizing s with
  | nil => exact ⟨hp, rfl, rfl⟩
  | cons ev evs ih =>
      obtain ⟨h1, h2, h3⟩ := connStep_disconnected s ev hp
      obtain ⟨h4, h5, h6⟩ := ih (connStep s ev) h1
      exact ⟨h4, h2 ▸ h5, h3 ▸ h6⟩

/-! ## Client read-loop lemmas -/

lemma clientStep_erase (s : net_client) (ev : ClientEvent) :
    clientStep s (eraseClientErr ev) = clientStep s ev := by
  cases ev <;> rfl

lemma runClient_nil (s : net_client) : runClient s [] = s := rfl

lemma runClient_cons (s : net_client) (ev : ClientEvent) (evs : List ClientEvent) :
    runClient s (ev :: evs) = runClient (clientStep s ev) evs := rfl

lemma runClient_erase (s : net_client) (evs : List ClientEvent) :
    runClient s (evs.map eraseClientErr) = runClient s evs := by
  induction evs generalizing s with
  | nil => rfl
  | cons ev evs ih =>
      rw [List.map_cons, runClient_cons, runClient_cons, clientStep_erase]
      exact ih (clientStep s ev)

/-! ## Registry lemmas -/

lemma runSrv_nil (s : net_server) : runSrv s [] = s := rfl

lemma runSrv_cons (s : net_server) (ev : SrvEvent) (evs : List SrvEvent) :
    runSrv s (ev :: evs) = runSrv (srvStep s ev) evs := rfl

lemma srvStep_reg_inv (s : net_server) (ev : SrvEvent) (h : reg_inv s) :
    reg_inv (srvStep s ev) := by
  obtain ⟨h1, h2, h3⟩ := h
  cases ev with
  | accept =>
      refine ⟨?_, ?_, ?_⟩
      · simp only [srvStep, net_server.accept_connection]
        rw [h1, List.range_succ]
      · simp only [srvStep, net_server.accept_connection]
        rw [List.pairwise_append]
        refine ⟨h2, List.pairwise_singleton _ _, ?_⟩
        intro a ha b hb
        rw [List.mem_singleton] at hb
        subst hb
        exact h3 a ha
      · simp only [srvStep, net_server.accept_connection]
        intro c hc
        rw [List.mem_append, List.mem_singleton] at hc
        rcases hc with hc | hc
        · exact Nat.lt_succ_of_lt (h3 c hc)
        · subst hc
          exact Nat.lt_succ_self _
  | disconnect id =>
      refine ⟨h1, ?_, ?_⟩
      · simp only [srvStep, net_server.client_disconnect]
        exact List.Pairwise.sublist (List.filter_sublist _) h2
      · simp only [srvStep, net_server.client_disconnect]
        intro c hc
        exact h3 c (List.mem_of_mem_filter hc)

lemma runSrv_reg_inv (s : net_server) (evs : List SrvEvent) (h : reg_inv s) :
    reg_inv (runSrv s evs) := by
  induction evs generalizing s with
  | nil => exact h
  | cons ev evs ih => exact ih (srvStep s ev) (srvStep_reg_inv s ev h)

lemma runSrv_next_id (s : net_server) (evs : List SrvEvent) :
    (runSrv s evs).next_id_ = s.next_id_ + countAccepts evs := by
  induction evs generalizing s with
  | nil => rfl
  | cons ev evs ih =>
      rw [runSrv_cons, ih]
      cases ev <;> simp [srvStep, net_server.accept_connection,
        net_server.client_disconnect, countAccepts] <;> omega

lemma runSrv_all_valid (s : net_server) (evs : List SrvEvent)
    (h : ∀ c ∈ s.connections_, c.valid_ = true) :
    ∀ c ∈ (runSrv s evs).connections_, c.valid_ = true := by
  induction evs generalizing s with
  | nil => exact h
  | cons ev evs ih =>
      rw [runSrv_cons]
      refine ih (srvStep s ev) ?_
      cases ev with
      | accept =>
          intro c hc
          simp only [srvStep, net_server.accept_connection] at hc
          rw [List.mem_append, List.mem_singleton] at hc
          rcases hc with hc | hc
          · exact h c hc
          · subst hc
            rfl
      | disconnect id =>
          intro c hc
          simp only [srvStep, net_server.client_disconnect] at hc
          exact h c (List.mem_of_mem_filter hc)

lemma send_to_all_lengths (srv : net_server) (body : Nat → Nat) (len : Nat)
    (h : ∀ c ∈ srv.connections_, c.valid_ = true) :
    (net_server.send_to_all srv body len).connections_.map
        (fun c => c.write_messages_.length)
      = srv.connections_.map (fun c => c.write_messages_.length + 1) := by
  simp only [net_server.send_to_all, List.map_map]
  refine List.map_congr_left ?_
  intro c hc
  simp only [Function.comp]
  rw [if_pos (h c hc), send_write_messages]
  simp

lemma send_to_all_except_lengths (srv : net_server) (id : Nat) (body : Nat → Nat)
    (len : Nat) (h : ∀ c ∈ srv.connections_, c.valid_ = true) :
    (net_server.send_to_all_except srv id body len).connections_.map
        (fun c => c.write_messages_.length)
      = srv.connections_.map
          (fun c => if c.id_ = id then c.write_messages_.length
                    else c.write_messages_.length + 1) := by
  simp only [net_server.send_to_all_except, List.map_map]
  refine List.map_congr_left ?_
  intro c hc
  simp only [Function.comp]
  by_cases hid : c.id_ = id
  · rw [if_pos hid, if_pos hid]
  · rw [if_neg hid, if_neg hid, if_pos (h c hc), send_write_messages]
    simp

/-! ## Claim theorems -/

/-- C1 (counterexample evaluation): in the reachable registry obtained by
accepting clients 0, 1, 2 and then losing client 1, `send_to(1, body, 1)`
does not report "target not found" and does write: `find_connection`
dereferences the `lower_bound` result without checking its id, so the
frame is enqueued on connection 2 (the second list entry) — the claim
requires no frame on any connection and a not-found report. -/
theorem send_to_misdelivers_on_absent_id :
    (net_server.send_to
        (runSrv net_server.ctor
          [SrvEvent.accept, SrvEvent.accept, SrvEvent.accept, SrvEvent.disconnect 1])
        1 (fun _ => 65) 1).2 = true ∧
    ((net_server.send_to
        (runSrv net_server.ctor
          [SrvEvent.accept, SrvEvent.accept, SrvEvent.accept, SrvEvent.disconnect 1])
        1 (fun _ => 65) 1).1.connections_.map
      (fun c => c.write_messages_.length)) = [0, 1] := by
  constructor <;> rfl

/-- C2 (counterexample evaluation): encoding a body of length 513 neither
fails nor truncates.  The constructed frame's tracked length is 513, its
header is `sprintf("%4d", 513)` = `" 513"` (declaring 513, not 512), the
header decodes back to 513, the 513th body byte is copied (at buffer
index 516, one past the end of the 516-byte `data_` array:
`data_size < header_length + body_length_`). -/
theorem encode_oversized_not_truncated :
    (net_message.body_ctor (fun _ => 65) 513 (fun _ => 0)).get_body_length = 513 ∧
    [(net_message.body_ctor (fun _ => 65) 513 (fun _ => 0)).data_ 0,
     (net_message.body_ctor (fun _ => 65) 513 (fun _ => 0)).data_ 1,
     (net_message.body_ctor (fun _ => 65) 513 (fun _ => 0)).data_ 2,
     (net_message.body_ctor (fun _ => 65) 513 (fun _ => 0)).data_ 3] = sprintf4 513 ∧
    sizeT (atoi (sprintf4 513 ++ [0])) = 513 ∧
    (net_message.body_ctor (fun _ => 65) 513 (fun _ => 0)).get_body 512 = 65 ∧
    data_size <
      header_length + (net_message.body_ctor (fun _ => 65) 513 (fun _ => 0)).get_body_length := by
  exact ⟨rfl, body_ctor_header_list _ _ 513, by decide, rfl, by decide⟩

/-- C3 (counterexample evaluation): the round-trip is broken by the
missing NUL terminator in `decode_header`.  Encoding the 1-byte body
`"a"` gives header `"   1"`; decoding it when the indeterminate stack
byte after the four copied header characters happens to be `'7'` (55)
yields body length 17, not 1 — `atoi` runs past the header into the
uninitialized byte.  (With a non-digit there, e.g. NUL, the original
length 1 is recovered.) -/
theorem decode_header_reads_indeterminate_byte :
    (net_message.body_ctor (fun _ => 97) 1 (fun _ => 0)).get_body_length = 1 ∧
    ((net_message.body_ctor (fun _ => 97) 1 (fun _ => 0)).decode_header [55, 0]).get_body_length
      = 17 ∧
    ((net_message.body_ctor (fun _ => 97) 1 (fun _ => 0)).decode_header [0]).get_body_length
      = 1 := by
  exact ⟨rfl, by decide, by decide⟩

/-- C4 (counterexample): a frame whose four header bytes are all `'9'`
decodes to body length 9999 — `decode_header` neither fails nor clamps,
only warns — and the subsequent `read_body` issues a read of exactly that
length, far above `max_body_length = 512`. -/
theorem decode_oversized_header_not_clamped :
    (net_message.decode_header { data_ := fun _ => 57, body_length_ := 0 } [0]).get_body_length
      = 9999 ∧
    tcp_connection.read_body_len
        (net_message.decode_header { data_ := fun _ => 57, body_length_ := 0 } [0]) = 9999 ∧
    512 < tcp_connection.read_body_len
        (net_message.decode_header { data_ := fun _ => 57, body_length_ := 0 } [0]) := by
  exact ⟨by decide, by decide, by decide⟩

/-- C4 (amended): `decode_header` stores exactly
`(size_t) atoi(header bytes ++ indeterminate stack bytes)` — applying no
clamp — and `read_body` uses exactly that stored value as the length of
the body read.  In particular, for any header printed by
`sprintf("%4d", n)` with `n ≤ 9999` (including every `n` above 512),
decoding recovers `n` itself, unbounded, whenever the indeterminate byte
after the copied header stops the digit loop.  The stored length is a
`size_t`, hence never negative. -/
theorem decode_header_parses_atoi_no_clamp :
    (∀ (m : net_message) (junk : List Nat),
       (m.decode_header junk).get_body_length
         = sizeT (atoi ([m.data_ 0, m.data_ 1, m.data_ 2, m.data_ 3] ++ junk)) ∧
       tcp_connection.read_body_len (m.decode_header junk)
         = (m.decode_header junk).get_body_length) ∧
    (∀ (n : Nat) (body uninit : Nat → Nat) (junk : List Nat),
       n ≤ 9999 → stopsParse junk →
       ((net_message.body_ctor body n uninit).decode_header junk).get_body_length = n) := by
  exact ⟨fun m junk => ⟨rfl, rfl⟩,
    fun n body uninit junk hn hj => decode_body_ctor body uninit n junk hn hj⟩

/-- Witness for the amended C4 theorem at `n = 9999`. -/
theorem decode_header_parses_atoi_no_clamp_witness :
    ((net_message.body_ctor (fun _ => 0) 9999 (fun _ => 0)).decode_header [0]).get_body_length
      = 9999 :=
  decode_header_parses_atoi_no_clamp.2 9999 (fun _ => 0) (fun _ => 0) [0]
    (by decide) (by decide)

/-- C5 (counterexample): a header-read completion with an error other
than EOF / connection-reset does NOT take the disconnect path: the
handler falls into the success branch, decodes the header and issues the
body read (`read_phase` becomes `awaitingBody`, no disconnect callback);
and a body-read completion ignores the error code entirely — even EOF
there continues the loop. -/
theorem server_other_read_error_continues_loop :
    (tcp_connection.handle_read_header (tcp_connection.ctor 0) ReadErr.other).read_phase
      = ReadPhase.awaitingBody ∧
    (tcp_connection.handle_read_header (tcp_connection.ctor 0) ReadErr.other).disconnect_calls
      = 0 ∧
    (tcp_connection.handle_read_body (tcp_connection.ctor 0) ReadErr.eof).read_phase
      = ReadPhase.awaitingHeader ∧
    (tcp_connection.handle_read_body (tcp_connection.ctor 0) ReadErr.eof).disconnect_calls
      = 0 := by
  exact ⟨rfl, rfl, rfl, rfl⟩

/-- C5 (amended): on a header-read completion with EOF or
connection-reset the connection transitions to `disconnected` and the
disconnect callback runs; along any event sequence from a fresh
connection the callback runs at most once; and once disconnected no
further event changes the read state or delivers a message.  A header
read completing with any OTHER error, however, continues to the body read
with no disconnect. -/
theorem server_read_disconnect_exactly_once :
    (∀ (s : tcp_connection) (e : ReadErr),
       e = ReadErr.eof ∨ e = ReadErr.connectionReset →
       (tcp_connection.handle_read_header s e).read_phase = ReadPhase.disconnected ∧
       (tcp_connection.handle_read_header s e).disconnect_calls = s.disconnect_calls + 1) ∧
    (∀ (s : tcp_connection) (e : ReadErr),
       ¬(e = ReadErr.eof ∨ e = ReadErr.connectionReset) →
       (tcp_connection.handle_read_header s e).read_phase = ReadPhase.awaitingBody ∧
       (tcp_connection.handle_read_header s e).disconnect_calls = s.disconnect_calls) ∧
    (∀ (id : Nat) (evs : List ConnEvent),
       (runConn (tcp_connection.ctor id) evs).disconnect_calls ≤ 1) ∧
    (∀ (s : tcp_connection) (evs : List ConnEvent),
       s.read_phase = ReadPhase.disconnected →
       (runConn s evs).read_phase = ReadPhase.disconnected ∧
       (runConn s evs).disconnect_calls = s.disconnect_calls ∧
       (runConn s evs).delivered = s.delivered) := by
  refine ⟨?_, ?_, ?_, fun s evs hp => runConn_disconnected s evs hp⟩
  · intro s e he
    rw [handle_read_header_disc s e he]
    exact ⟨rfl, rfl⟩
  · intro s e he
    rw [handle_read_header_cont s e he]
    exact ⟨rfl, rfl⟩
  · intro id evs
    have h0 : read_inv (tcp_connection.ctor id) :=
      Or.inr ⟨by intro h; simp [tcp_connection.ctor] at h, rfl⟩
    rcases runConn_read_inv _ evs h0 with ⟨_, h⟩ | ⟨_, h⟩ <;> omega

/-- Witness for the C5 theorem: EOF on a fresh connection disconnects it
and runs the callback once. -/
theorem server_read_disconnect_exactly_once_witness :
    (tcp_connection.handle_read_header (tcp_connection.ctor 3) ReadErr.eof).read_phase
        = ReadPhase.disconnected ∧
    (tcp_connection.handle_read_header (tcp_connection.ctor 3) ReadErr.eof).disconnect_calls
        = (tcp_connection.ctor 3).disconnect_calls + 1 :=
  server_read_disconnect_exactly_once.1 (tcp_connection.ctor 3) ReadErr.eof (Or.inl rfl)

/-- C6 (counterexample): after a header read completing with a
non-success error and a body read completing with EOF, the client has
delivered one message to the user callback and is awaiting the next
header — a read error neither terminates the loop nor stops delivery. -/
theorem client_delivers_after_read_error :
    (runClient net_client.ctor
        [ClientEvent.header_done ReadErr.other, ClientEvent.body_done ReadErr.eof]).delivered
      = 1 ∧
    (runClient net_client.ctor
        [ClientEvent.header_done ReadErr.other, ClientEvent.body_done ReadErr.eof]).read_phase
      = ReadPhase.awaitingHeader := by
  exact ⟨rfl, rfl⟩

/-- C6 (amended): the client's read handlers never examine the error
code: every trace behaves exactly like the trace with all errors replaced
by success; `handle_read_header` always proceeds to the body read, and
`handle_read_body` always delivers the message and reissues the header
read, whatever the error. -/
theorem client_read_loop_ignores_errors :
    (∀ (s : net_client) (ev : ClientEvent), clientStep s (eraseClientErr ev) = clientStep s ev) ∧
    (∀ (s : net_client) (evs : List ClientEvent),
       runClient s (evs.map eraseClientErr) = runClient s evs) ∧
    (∀ (s : net_client) (e : ReadErr),
       (net_client.handle_read_header s e).read_phase = ReadPhase.awaitingBody ∧
       (net_client.handle_read_header s e).delivered = s.delivered) ∧
    (∀ (s : net_client) (e : ReadErr),
       (net_client.handle_read_body s e).read_phase = ReadPhase.awaitingHeader ∧
       (net_client.handle_read_body s e).delivered = s.delivered + 1) := by
  exact ⟨clientStep_erase, runClient_erase,
    fun s e => ⟨rfl, rfl⟩, fun s e => ⟨rfl, rfl⟩⟩

/-- C7: the write loop is FIFO with at most one write in flight.
`send` appends to the queue and starts a write exactly when the queue was
empty before the enqueue; a successful completion pops the head frame and
starts the next write exactly when the queue is still non-empty; over any
event sequence from a fresh connection, the frames written so far
followed by the frames still queued are exactly the frames passed to
`send`, in order — so completion order equals enqueue order — and never
more than one write is outstanding. -/
theorem tcp_write_loop_fifo :
    (∀ (s : tcp_connection) (m : net_message),
       (tcp_connection.send s m).write_messages_ = s.write_messages_ ++ [m] ∧
       (tcp_connection.send s m).outstanding_writes =
         (if s.write_messages_.isEmpty then s.outstanding_writes + 1
          else s.outstanding_writes)) ∧
    (∀ (s : tcp_connection) (m : net_message) (rest : List net_message),
       s.write_messages_ = m :: rest → s.outstanding_writes = 1 →
       (tcp_connection.write_completion s ReadErr.ok).write_messages_ = rest ∧
       (tcp_connection.write_completion s ReadErr.ok).written = s.written ++ [m] ∧
       (tcp_connection.write_completion s ReadErr.ok).outstanding_writes =
         (if rest.isEmpty then 0 else 1)) ∧
    (∀ (id : Nat) (evs : List ConnEvent),
       (runConn (tcp_connection.ctor id) evs).written
           ++ (runConn (tcp_connection.ctor id) evs).write_messages_ = sentFrames evs ∧
       (runConn (tcp_connection.ctor id) evs).outstanding_writes ≤ 1) := by
  refine ⟨fun s m => ⟨send_write_messages s m, send_outstanding s m⟩, ?_, ?_⟩
  · intro s m rest hq h1
    obtain ⟨ha, hb, hc⟩ := write_completion_ok s m rest hq
    refine ⟨ha, hb, ?_⟩
    rw [hc, h1]
  · intro id evs
    have h0 : write_inv (tcp_connection.ctor id) :=
      ⟨by simp [tcp_connection.ctor], by intro h; simp [tcp_connection.ctor] at h⟩
    obtain ⟨⟨h1, _⟩, h2⟩ := runConn_write _ evs h0
    refine ⟨?_, h1⟩
    rw [h2]
    simp [tcp_connection.ctor]

/-- Witness for the C7 theorem: completing the only queued write empties
the queue, records the frame as written, and starts no further write. -/
theorem tcp_write_loop_fifo_witness :
    (tcp_connection.write_completion
        { id_ := 0, valid_ := true,
          write_messages_ := [net_message.body_ctor (fun _ => 65) 1 (fun _ => 0)],
          outstanding_writes := 1, written := [],
          read_phase := ReadPhase.awaitingHeader,
          disconnect_calls := 0, delivered := 0 }
        ReadErr.ok).write_messages_ = [] :=
  (tcp_write_loop_fifo.2.1 _ (net_message.body_ctor (fun _ => 65) 1 (fun _ => 0)) []
    rfl rfl).1

/-- C8: over any sequence of accepts and disconnects from a fresh
registry, the ids handed out by the accept loop are exactly
`0, 1, …, k-1` in order (`k` = number of accepts) — starting at 0,
strictly increasing, never reused, unaffected by interleaved
disconnects — and the connection list is strictly sorted by id after
every step. -/
theorem server_ids_monotonic_and_sorted :
    ∀ evs : List SrvEvent,
      (runSrv net_server.ctor evs).assigned = List.range (countAccepts evs) ∧
      List.Pairwise (fun a b : tcp_connection => a.id_ < b.id_)
        (runSrv net_server.ctor evs).connections_ := by
  intro evs
  have h0 : reg_inv net_server.ctor :=
    ⟨rfl, List.Pairwise.nil, fun c hc => absurd hc (List.not_mem_nil c)⟩
  obtain ⟨h1, h2, _⟩ := runSrv_reg_inv _ evs h0
  refine ⟨?_, h2⟩
  rw [h1, runSrv_next_id]
  simp [net_server.ctor]

/-- C9 (counterexample evaluation): copy assignment is not a deep copy.
Assigning a frame with body `"abcd"` (length 4) into a frame whose body
is `"wxyz"` copies only `body_length_ = 4` bytes — the header region —
because the source omits `+ header_length`; the result's first body byte
is still `'w'` (119), not the original's `'a'` (97).  The copy
constructor, by contrast, does copy the body. -/
theorem operator_assign_not_deep_copy :
    ((net_message.body_ctor (fun i => [119, 120, 121, 122].getD i 0) 4 (fun _ => 0)).assign
        (net_message.body_ctor (fun i => [97, 98, 99, 100].getD i 0) 4 (fun _ => 0))).get_body_length
      = 4 ∧
    (net_message.body_ctor (fun i => [97, 98, 99, 100].getD i 0) 4 (fun _ => 0)).get_body 0
      = 97 ∧
    ((net_message.body_ctor (fun i => [119, 120, 121, 122].getD i 0) 4 (fun _ => 0)).assign
        (net_message.body_ctor (fun i => [97, 98, 99, 100].getD i 0) 4 (fun _ => 0))).get_body 0
      = 119 ∧
    ((net_message.body_ctor (fun i => [97, 98, 99, 100].getD i 0) 4 (fun _ => 0)).copy_ctor
        (fun _ => 0)).get_body 0 = 97 := by
  exact ⟨rfl, rfl, rfl, rfl⟩

/-- C10: `valid_` is set true by the constructor and no operation ever
clears it: it survives any event sequence on a connection, every
connection present in any reachable registry has it true, and therefore
`send_to_all` enqueues one frame on every connection in the registry
(and `send_to_all_except id` on every connection except the one with the
excluded id) — the skip-invalid checks exclude nothing. -/
theorem valid_flag_always_true :
    (∀ id : Nat, tcp_connection.valid (tcp_connection.ctor id) = true) ∧
    (∀ (s : tcp_connection) (evs : List ConnEvent), (runConn s evs).valid_ = s.valid_) ∧
    (∀ evs : List SrvEvent, ∀ c ∈ (runSrv net_server.ctor evs).connections_,
       c.valid_ = true) ∧
    (∀ (srv : net_server) (body : Nat → Nat) (len : Nat),
       (∀ c ∈ srv.connections_, c.valid_ = true) →
       (net_server.send_to_all srv body len).connections_.map
           (fun c => c.write_messages_.length)
         = srv.connections_.map (fun c => c.write_messages_.length + 1) ∧
       (∀ id : Nat,
         (net_server.send_to_all_except srv id body len).connections_.map
             (fun c => c.write_messages_.length)
           = srv.connections_.map
               (fun c => if c.id_ = id then c.write_messages_.length
                         else c.write_messages_.length + 1))) := by
  refine ⟨fun id => rfl, fun s evs => (runConn_valid_id s evs).1, ?_, ?_⟩
  · exact fun evs => runSrv_all_valid _ evs (fun c hc => absurd hc (List.not_mem_nil c))
  · exact fun srv body len h =>
      ⟨send_to_all_lengths srv body len h,
       fun id => send_to_all_except_lengths srv id body len h⟩

/-- Witness for the C10 theorem: broadcasting on a registry with two
accepted connections enqueues exactly one frame on each. -/
theorem valid_flag_always_true_witness :
    (net_server.send_to_all (runSrv net_server.ctor [SrvEvent.accept, SrvEvent.accept])
        (fun _ => 65) 1).connections_.map (fun c => c.write_messages_.length)
      = (runSrv net_server.ctor [SrvEvent.accept, SrvEvent.accept]).connections_.map
          (fun c => c.write_messages_.length + 1) :=
  (valid_flag_always_true.2.2.2 _ (fun _ => 65) 1 (by decide)).1

end NetEngine
